import Mathlib

/-!
A shallow embedding of the job-orchestration core of `src/audit.js`
(WordPress sitewide accessibility audit): sitemap URL normalization,
the concurrency limiter, browser-instance cleanup, sitemap fetching and
URL collection, the retrying accessibility-check runner, and the batch
coordinator of `main`.  Asynchronous JS code is modelled by explicit
state passing (the `browserInstances` set, backoff-delay logs, run-event
logs); the external collaborators (axios + xml2js fetching, pa11y) are
modelled as oracle functions supplied as parameters.
-/

namespace WPAudit

/-- The fields of the `CONFIG` object (src/audit.js lines 10-50) that the
orchestration core reads.  `INITIAL_RETRY_DELAY` and `RETRY_MULTIPLIER`
are JS numbers (`parseFloat` for the multiplier), modelled as rationals. -/
structure Config where
  maxConcurrentChecks : Nat
  batchSize : Nat
  delayBetweenRequests : Nat
  maxRetries : Nat
  initialRetryDelay : ℚ
  retryMultiplier : ℚ
deriving DecidableEq

/-- The default configuration values (no environment overrides). -/
def defaultConfig : Config :=
  { maxConcurrentChecks := 1
    batchSize := 3
    delayBetweenRequests := 5000
    maxRetries := 3
    initialRetryDelay := 5000
    retryMultiplier := 2 }

/-! ### processSitemapUrl (src/audit.js lines 55-82)

Strings are modelled as `List Char` so that prefix/suffix reasoning is
by list induction.  `String.prototype.trim` removes whitespace from both
ends; `url.replace(/\x7b slash dollar \x7d/, '')` removes at most one
trailing slash. -/

/-- JS `String.prototype.trim`: strip whitespace from both ends. -/
def jsTrim (s : List Char) : List Char :=
  ((s.dropWhile Char.isWhitespace).reverse.dropWhile Char.isWhitespace).reverse

/-- The protocol-prepending step of `processSitemapUrl`
(lines 68-70): prepend `https://` unless the string already starts
with `http://` or `https://`. -/
def addProtocol (url : List Char) : List Char :=
  if "http://".toList.isPrefixOf url = false ∧ "https://".toList.isPrefixOf url = false then
    "https://".toList ++ url
  else
    url

/-- `url.replace` with the anchored regex of line 78: remove one trailing
slash if present. -/
def stripTrailingSlash (url : List Char) : List Char :=
  if url.getLast? = some '/' then url.dropLast else url

/-- `processSitemapUrl` (lines 55-82) on a non-empty input (the empty /
missing input path exits the process and is outside the model):
trim, add a protocol if missing, return unchanged if it already ends in
`.xml`, otherwise drop one trailing slash and append
`/sitemap_index.xml`. -/
def processSitemapUrl (input : List Char) : List Char :=
  let url := jsTrim input
  let url := addProtocol url
  if ".xml".toList.isSuffixOf url then
    url
  else
    stripTrailingSlash url ++ "/sitemap_index.xml".toList

/-! ### ConcurrencyLimiter (src/audit.js lines 91-127)

The limiter's mutable state is `running` (a counter) and `queue` (an
array of pending callbacks).  `run(fn)` pushes onto the queue and pokes
`process()`; `process()` starts the queue head iff `running < limit`;
a finishing unit decrements `running` and pokes `process()` again.
The ghost fields `submitted`/`started` record, in order, every unit
ever submitted via `run` and every unit ever started by `process`, so
the FIFO property is expressible. -/

/-- The observable-plus-ghost state of a `ConcurrencyLimiter`.
Units of work are identified by `Nat` ids. -/
structure LimiterState where
  running : Nat
  queue : List Nat
  submitted : List Nat
  started : List Nat
deriving DecidableEq

/-- A fresh limiter: `running = 0`, empty queue (constructor, lines 92-96). -/
def limiterInit : LimiterState :=
  { running := 0, queue := [], submitted := [], started := [] }

/-- One atomic event of the limiter.  `submit` is the queue push in
`run` (line 100); `start` is the `running++` / `queue.shift()` pair in
`process`, guarded by `running < limit` and a non-empty queue
(lines 110-115); `finish` is the `finally` decrement of a completed
unit (line 123).  The JS event loop interleaves these atomically. -/
inductive LimiterStep (limit : Nat) : LimiterState → LimiterState → Prop
  | submit (j : Nat) (s : LimiterState) :
      LimiterStep limit s
        { s with queue := s.queue ++ [j], submitted := s.submitted ++ [j] }
  | start (j : Nat) (rest : List Nat) (s : LimiterState) :
      s.running < limit → s.queue = j :: rest →
      LimiterStep limit s
        { running := s.running + 1, queue := rest,
          submitted := s.submitted, started := s.started ++ [j] }
  | finish (s : LimiterState) :
      0 < s.running →
      LimiterStep limit s { s with running := s.running - 1 }

/-- States reachable from a fresh limiter by any interleaving of events. -/
inductive LimiterReachable (limit : Nat) : LimiterState → Prop
  | init : LimiterReachable limit limiterInit
  | step {s t : LimiterState} :
      LimiterReachable limit s → LimiterStep limit s t → LimiterReachable limit t

/-! ### Resource tracker cleanup (src/audit.js lines 133-148)

`browserInstances` is a JS `Set`; `cleanup` iterates over it, awaiting
`browser.close()` inside a try/catch whose catch block is empty, then
calls `browserInstances.clear()`.  Handles are `Nat` ids; the effect of
`close` on a handle is an oracle (`Except` models a throwing close). -/

/-- Result of `cleanup`: the handles on which `close` was attempted, in
iteration order, and the final contents of `browserInstances`. -/
structure CleanupResult where
  attempted : List Nat
  instances : List Nat
deriving DecidableEq

/-- The `for (const browser of browserInstances)` loop of `cleanup`
(lines 140-146): try to close each handle; a throwing close is caught
and ignored, and iteration continues. -/
def cleanupLoop (close : Nat → Except String Unit) :
    List Nat → List Nat → List Nat
  | [], attempted => attempted
  | b :: rest, attempted =>
    match close b with
    | Except.ok _ => cleanupLoop close rest (attempted ++ [b])
    | Except.error _ => cleanupLoop close rest (attempted ++ [b])

/-- `cleanup` (lines 138-148): run the close loop over the current
contents of `browserInstances`, then `browserInstances.clear()`. -/
def cleanup (close : Nat → Except String Unit) (browserInstances : List Nat) :
    CleanupResult :=
  { attempted := cleanupLoop close browserInstances []
    instances := [] }

/-! ### Sitemap fetching and URL collection (src/audit.js lines 171-279)

A parsed XML document (`xml2js` output) is abstracted to the two shapes
the code inspects: `urlset.url[...].loc[0]` entries and
`sitemapindex.sitemap[...].loc[0]` entries.  A `loc` may be missing
(`none`) or an empty string; both are falsy in the JS truthiness tests
`urlItem.loc && urlItem.loc[0]` and are skipped.  The network and the
XML parser together are an oracle `String → Nat → Option SitemapDoc`
(URL and 0-based attempt number to the parsed document, `none` when the
GET or the parse fails on that attempt). -/

/-- A parsed sitemap document: the `<urlset>` loc entries and the
`<sitemapindex>` loc entries.  Any other XML shape is both lists empty. -/
structure SitemapDoc where
  urlItems : List (Option String)
  sitemapItems : List (Option String)
deriving DecidableEq

/-- The JS truthiness test `item.loc && item.loc[0]`: keep a loc that is
present and non-empty. -/
def truthyLoc (loc : Option String) : Option String :=
  match loc with
  | some s => if s = "" then none else some s
  | none => none

/-- `extractUrlsFromSitemap` (lines 203-216): collect the truthy
`urlset` locs in order. -/
def extractUrlsFromSitemap (sitemapData : SitemapDoc) : List String :=
  sitemapData.urlItems.filterMap truthyLoc

/-- `getSitemapsFromIndex` (lines 221-233): collect the truthy
`sitemapindex` locs in order. -/
def getSitemapsFromIndex (indexData : SitemapDoc) : List String :=
  indexData.sitemapItems.filterMap truthyLoc

/-- The attempt loop of `fetchXML` (lines 171-198), structurally recursive
on the number of attempts remaining after the current one
(`remaining = retries - attempt`): try the current attempt; on failure
retry (after a linear backoff, irrelevant to the result) while attempts
remain, else return `null`. -/
def fetchXMLLoop (fetch : Nat → Option SitemapDoc) (attempt : Nat) :
    Nat → Option SitemapDoc
  | 0 =>
    match fetch attempt with
    | some data => some data
    | none => none
  | remaining + 1 =>
    match fetch attempt with
    | some data => some data
    | none => fetchXMLLoop fetch (attempt + 1) remaining

/-- `fetchXML(url, retries = 2)`: attempts `0 .. retries` of the fetch
oracle for one URL. -/
def fetchXML (fetch : Nat → Option SitemapDoc) (retries : Nat := 2) :
    Option SitemapDoc :=
  fetchXMLLoop fetch 0 retries

/-- JS `Set.prototype.add` on a `Set` represented as its
insertion-ordered element list: adding an existing element is a no-op. -/
def setAdd {α : Type} [DecidableEq α] (s : List α) (x : α) : List α :=
  if x ∈ s then s else s ++ [x]

/-- The child-sitemap loop of `getAllUrls` (lines 255-266): for each
child sitemap URL, fetch it (with `fetchXML`'s own retries); on success
add its extracted URLs to the `allUrls` set, on failure warn and skip. -/
def collectChildUrls (net : String → Nat → Option SitemapDoc) :
    List String → List String → List String
  | [], allUrls => allUrls
  | smUrl :: rest, allUrls =>
    match fetchXML (net smUrl) with
    | some sitemapData =>
        collectChildUrls net rest
          ((extractUrlsFromSitemap sitemapData).foldl setAdd allUrls)
    | none => collectChildUrls net rest allUrls

/-- `getAllUrls` (lines 238-279): fetch the root document at
`sitemapUrl`; on failure return `[]`.  Otherwise collect URLs from each
child sitemap listed in the index (failed children are skipped), then
also treat the root document itself as a direct sitemap, and return the
deduplicated URL set in insertion order (`Array.from(allUrls)`). -/
def getAllUrls (net : String → Nat → Option SitemapDoc) (sitemapUrl : String) :
    List String :=
  match fetchXML (net sitemapUrl) with
  | none => []
  | some indexData =>
    let sitemaps := getSitemapsFromIndex indexData
    let allUrls := collectChildUrls net sitemaps []
    (extractUrlsFromSitemap indexData).foldl setAdd allUrls

/-! ### Error classifier (src/audit.js lines 284-307) -/

/-- The fixed substring patterns of transient failures (lines 288-304). -/
def retryablePatterns : List String :=
  ["timeout", "timed out", "navigation timeout", "net::err", "econnreset",
   "econnrefused", "socket hang up", "empty response", "protocol error",
   "target closed", "session closed", "page crashed", "abnormal",
   "failed action", "wait for"]

/-- JS `String.prototype.includes`: does `pattern` occur contiguously in
the string (as a character list)? -/
def containsPattern (pattern : List Char) : List Char → Bool
  | [] => pattern.isEmpty
  | c :: rest => pattern.isPrefixOf (c :: rest) || containsPattern pattern rest

/-- `isRetryableError` (lines 284-307): lower-case the error message and
test whether any retryable pattern occurs in it as a substring. -/
def isRetryableError (message : String) : Bool :=
  let errorMessage := message.toList.map Char.toLower
  retryablePatterns.any fun pattern =>
    containsPattern pattern.toList errorMessage

/-! ### Job runner with retry (src/audit.js lines 312-397)

The external checker (`pa11y`) is an oracle from the 1-based attempt
number to either a successful result (issues, optional document title,
and an optional exposed browser handle `results.browser`) or a thrown
error.  A thrown JS `Error` carries only a message; the handle the
checker may have opened internally before failing (`sessionOpened`) is
ghost data invisible to the code, recorded so that the resource-tracking
claims are expressible.  The `browserInstances` set threads through as
explicit state; the backoff delays passed to `delay(...)` before each
retry are logged (the pre-attempt jitter of lines 315-318 draws from a
random source and affects no claimed observable, so it is not logged). -/

/-- One accessibility issue as passed through from the checker. -/
structure Issue where
  itype : String
  code : String
  message : String
  context : Option String
  selector : Option String
deriving DecidableEq

/-- A successful `pa11y` invocation: `results.issues`,
`results.documentTitle`, `results.browser`. -/
structure CheckSuccess where
  issues : List Issue
  documentTitle : Option String
  browser : Option Nat
deriving DecidableEq

/-- A failed `pa11y` invocation: the thrown error's message, plus the
ghost record of a session the checker opened internally before failing
(never surfaced to the caller through the thrown error). -/
structure CheckFailure where
  message : String
  sessionOpened : Option Nat
deriving DecidableEq

/-- The outcome of one checker attempt. -/
def AttemptResult : Type := Except CheckFailure CheckSuccess

/-- The handles opened by one checker attempt: the exposed
`results.browser` on success, the ghost internal session on failure. -/
def attemptOpenedHandles (r : AttemptResult) : List Nat :=
  match r with
  | Except.ok results => results.browser.toList
  | Except.error err => err.sessionOpened.toList

/-- Job status: the `status` field of a result record. -/
inductive Status where
  | success
  | error
deriving DecidableEq

/-- The per-URL result record built at lines 365-371 / 387-395. -/
structure Outcome where
  url : String
  issues : List Issue
  status : Status
  errorMessage : Option String
  documentTitle : String
  attempts : Nat
  isRetryable : Option Bool
deriving DecidableEq

/-- What one `runAccessibilityCheck` call produces: the outcome record,
the `browserInstances` set after the call, and the backoff delays (ms)
passed to `delay` before retries, in chronological order. -/
structure RunResult where
  outcome : Outcome
  tracked : List Nat
  backoffs : List ℚ
deriving DecidableEq

/-- `runAccessibilityCheck(url, attemptNumber = 1)` (lines 312-397).
On success, register `results.browser` (if present) in
`browserInstances` and return a success outcome with the attempt count.
On a thrown error, classify it; if retryable and attempts remain, wait
`INITIAL_RETRY_DELAY * RETRY_MULTIPLIER ^ (attemptNumber - 1)` and
recurse with the next attempt number; otherwise return an error outcome
carrying the message, the classification, and the attempts consumed. -/
def runAccessibilityCheck (cfg : Config) (check : Nat → AttemptResult)
    (url : String) (attemptNumber : Nat) (tracked : List Nat) : RunResult :=
  match check attemptNumber with
  | Except.ok results =>
    let tracked :=
      match results.browser with
      | some b => setAdd tracked b
      | none => tracked
    { outcome :=
        { url := url, issues := results.issues, status := Status.success,
          errorMessage := none,
          documentTitle := results.documentTitle.getD url,
          attempts := attemptNumber, isRetryable := none }
      tracked := tracked, backoffs := [] }
  | Except.error err =>
    let retryable := isRetryableError err.message
    if h : retryable = true ∧ attemptNumber < cfg.maxRetries then
      let retryDelay :=
        cfg.initialRetryDelay * cfg.retryMultiplier ^ (attemptNumber - 1)
      let r := runAccessibilityCheck cfg check url (attemptNumber + 1) tracked
      { r with backoffs := retryDelay :: r.backoffs }
    else
      { outcome :=
          { url := url, issues := [], status := Status.error,
            errorMessage := some err.message, documentTitle := url,
            attempts := attemptNumber, isRetryable := some retryable }
        tracked := tracked, backoffs := [] }
termination_by cfg.maxRetries - attemptNumber
decreasing_by omega

/-! ### Batch coordinator (src/audit.js lines 402-453 and 828-846)

`processUrlBatch` maps each URL of a batch through
`limiter.run(... runAccessibilityCheck ...)`; `Promise.all` returns the
batch's outcomes in the order of the URL array.  `main`'s loop slices
the URL list into `Math.ceil(urls.length / BATCH_SIZE)` consecutive
batches, awaits each batch fully, and between consecutive batches (but
not after the last) waits `DELAY_BETWEEN_REQUESTS * 2`.  The run-event
log records, in order, each processed batch and each inter-batch pause. -/

/-- `processUrlBatch` (lines 402-453): one outcome per URL of the batch
via `runAccessibilityCheck(url)` (starting at attempt 1), with the
`browserInstances` set threaded through.  The checker oracle takes the
URL and the attempt number. -/
def processUrlBatch (cfg : Config) (check : String → Nat → AttemptResult)
    (batch : List String) (tracked : List Nat) : List Outcome × List Nat :=
  match batch with
  | [] => ([], tracked)
  | url :: rest =>
    let r := runAccessibilityCheck cfg (check url) url 1 tracked
    let restResults := processUrlBatch cfg check rest r.tracked
    (r.outcome :: restResults.1, restResults.2)

/-- `Math.ceil(n / batchSize)` for natural `n` and positive `batchSize`
(line 829). -/
def numBatches (n batchSize : Nat) : Nat :=
  (n + batchSize - 1) / batchSize

/-- An observable event of `main`'s batch loop: a batch fully processed,
or an inter-batch pause of the given length (ms). -/
inductive RunEvent where
  | batch (urls : List String)
  | pause (ms : Nat)
deriving DecidableEq

/-- What the batch loop of `main` produces: the concatenated outcome
list, the final `browserInstances` set, and the run-event log. -/
structure BatchLoopResult where
  results : List Outcome
  tracked : List Nat
  events : List RunEvent
deriving DecidableEq

/-- The `for (let i = 0; i < batches; i++)` loop of `main`
(lines 831-846), structurally recursive on the iterations remaining:
slice the batch `urls.slice(i * B, min(i * B + B, n))` (JS `slice`
clamps at the array end exactly as `take` does), process it, append its
results, and pause for `DELAY_BETWEEN_REQUESTS * 2` iff `i < batches - 1`. -/
def mainBatchLoop (cfg : Config) (check : String → Nat → AttemptResult)
    (urls : List String) (batches : Nat) (i : Nat) :
    Nat → List Nat → BatchLoopResult
  | 0, tracked => { results := [], tracked := tracked, events := [] }
  | remaining + 1, tracked =>
    let batch := (urls.drop (i * cfg.batchSize)).take cfg.batchSize
    let pb := processUrlBatch cfg check batch tracked
    let rest := mainBatchLoop cfg check urls batches (i + 1) remaining pb.2
    { results := pb.1 ++ rest.results
      tracked := rest.tracked
      events :=
        RunEvent.batch batch ::
          (if i < batches - 1 then
            RunEvent.pause (cfg.delayBetweenRequests * 2) :: rest.events
          else rest.events) }

/-- The whole batching phase of `main` (lines 828-846), starting from
the current `browserInstances` contents. -/
def mainRun (cfg : Config) (check : String → Nat → AttemptResult)
    (urls : List String) (tracked : List Nat) : BatchLoopResult :=
  let batches := numBatches urls.length cfg.batchSize
  mainBatchLoop cfg check urls batches 0 batches tracked

/-- The successive batch slices `main`'s loop takes, from iteration `i`
on, with the given number of iterations remaining: batch `i` is
`urls.slice(i * B, min(i * B + B, n))`. -/
def sliceBatches (urls : List String) (B i : Nat) : Nat → List (List String)
  | 0 => []
  | remaining + 1 =>
    (urls.drop (i * B)).take B :: sliceBatches urls B (i + 1) remaining

/-- The batch partition `main` traverses: the `ceil(n / B)` consecutive
slices of the URL list. -/
def batchPartition (cfg : Config) (urls : List String) : List (List String) :=
  sliceBatches urls cfg.batchSize 0 (numBatches urls.length cfg.batchSize)

/-! ## Lemmas about `setAdd` -/

theorem mem_setAdd {α : Type} [DecidableEq α] (s : List α) (x y : α) :
    y ∈ setAdd s x ↔ y ∈ s ∨ y = x := by
  by_cases h : x ∈ s
  · unfold setAdd
    rw [if_pos h]
    constructor
    · exact fun hy => Or.inl hy
    · rintro (hy | rfl)
      · exact hy
      · exact h
  · unfold setAdd
    rw [if_neg h]
    constructor
    · intro hy
      rcases List.mem_append.mp hy with h1 | h1
      · exact Or.inl h1
      · exact Or.inr (List.mem_singleton.mp h1)
    · intro hy
      rcases hy with h1 | rfl
      · exact List.mem_append_left _ h1
      · exact List.mem_append_right _ (List.mem_singleton.mpr rfl)

theorem setAdd_nodup {α : Type} [DecidableEq α] (s : List α) (x : α)
    (hs : s.Nodup) : (setAdd s x).Nodup := by
  by_cases h : x ∈ s
  · unfold setAdd
    rw [if_pos h]
    exact hs
  · unfold setAdd
    rw [if_neg h]
    exact hs.append (List.nodup_singleton x) (List.disjoint_singleton.mpr h)

theorem foldl_setAdd_nodup {α : Type} [DecidableEq α] (l : List α) :
    ∀ acc : List α, acc.Nodup → (l.foldl setAdd acc).Nodup := by
  induction l with
  | nil => intro acc h; exact h
  | cons x rest ih =>
    intro acc h
    exact ih (setAdd acc x) (setAdd_nodup acc x h)

theorem mem_foldl_setAdd {α : Type} [DecidableEq α] (l : List α) :
    ∀ (acc : List α) (y : α), y ∈ l.foldl setAdd acc ↔ y ∈ acc ∨ y ∈ l := by
  induction l with
  | nil => intro acc y; simp
  | cons x rest ih =>
    intro acc y
    rw [List.foldl_cons, ih, mem_setAdd]
    simp only [List.mem_cons]
    tauto

/-! ## C5: cleanup empties the tracker and attempts every close -/

theorem cleanupLoop_eq (close : Nat → Except String Unit) :
    ∀ l acc : List Nat, cleanupLoop close l acc = acc ++ l := by
  intro l
  induction l with
  | nil => intro acc; simp [cleanupLoop]
  | cons b rest ih =>
    intro acc
    cases hc : close b with
    | ok v => simp [cleanupLoop, hc, ih]
    | error e => simp [cleanupLoop, hc, ih]

/-- **C5**: after `cleanup` returns, the tracked resource set
(`browserInstances`) is empty, for every prior contents of the set and
every close behaviour (including throwing closes); each close error is
swallowed, so every handle in the set still gets a close attempt, in
order. -/
theorem cleanup_empties_and_closes_all (close : Nat → Except String Unit)
    (browserInstances : List Nat) :
    (cleanup close browserInstances).instances = [] ∧
    (cleanup close browserInstances).attempted = browserInstances := by
  refine ⟨rfl, ?_⟩
  simp [cleanup, cleanupLoop_eq]

/-! ## C3: the concurrency limiter never exceeds its limit and starts FIFO -/

/-- **C3**: in every state reachable by any interleaving of
submissions, starts and completions, the `running` counter never
exceeds the configured limit, and the units started so far, in start
order, form a prefix of the units submitted so far, in submission
order (the still-queued units being exactly the remaining suffix):
starts are FIFO in submission order. -/
theorem limiter_running_le_and_fifo (limit : Nat) (s : LimiterState)
    (h : LimiterReachable limit s) :
    s.running ≤ limit ∧ s.started ++ s.queue = s.submitted := by
  induction h with
  | init => exact ⟨Nat.zero_le _, rfl⟩
  | step _ hstep ih =>
    obtain ⟨ihr, ihq⟩ := ih
    cases hstep with
    | submit j s =>
      refine ⟨ihr, ?_⟩
      simp only
      rw [← List.append_assoc, ihq]
    | start j rest s hlt hq =>
      refine ⟨hlt, ?_⟩
      simp only
      rw [hq] at ihq
      rw [← ihq, List.append_assoc]
      rfl
    | finish s hpos =>
      exact ⟨le_trans (Nat.sub_le _ _) ihr, ihq⟩

/-- Witness for C3 at a concrete trace: limit 2, submit unit 5, start
it.  The reached state has one unit running and starts recorded FIFO. -/
theorem limiter_running_le_and_fifo_witness :
    ({ running := 1, queue := [], submitted := [5], started := [5] } :
        LimiterState).running ≤ 2 ∧
    ({ running := 1, queue := [], submitted := [5], started := [5] } :
        LimiterState).started ++
      ({ running := 1, queue := [], submitted := [5], started := [5] } :
          LimiterState).queue =
      ({ running := 1, queue := [], submitted := [5], started := [5] } :
          LimiterState).submitted :=
  limiter_running_le_and_fifo 2 _
    (LimiterReachable.step
      (LimiterReachable.step LimiterReachable.init
        (LimiterStep.submit 5 limiterInit))
      (LimiterStep.start 5 []
        { limiterInit with
            queue := limiterInit.queue ++ [5]
            submitted := limiterInit.submitted ++ [5] }
        (by decide) rfl))

/-! ## C10: processSitemapUrl always yields an http(s) URL of the
described shape -/

theorem addProtocol_protocol (u : List Char) :
    "http://".toList <+: addProtocol u ∨ "https://".toList <+: addProtocol u := by
  unfold addProtocol
  split
  next h => exact Or.inr (List.prefix_append _ _)
  next h =>
    rcases Bool.eq_false_or_eq_true ("http://".toList.isPrefixOf u) with h1 | h1
    · exact Or.inl (List.isPrefixOf_iff_prefix.mp h1)
    · rcases Bool.eq_false_or_eq_true ("https://".toList.isPrefixOf u) with h2 | h2
      · exact Or.inr (List.isPrefixOf_iff_prefix.mp h2)
      · exact absurd ⟨h1, h2⟩ h

/-- A prefix that itself ends in a slash survives the combination of
`stripTrailingSlash` and appending a slash-initial path: either the
stripped slash lay beyond the prefix, or the prefix was the whole
string and the appended path restores its final slash. -/
theorem prefix_stripSlash_append (p u tail : List Char)
    (hp : p <+: u) (hlast : p.getLast? = some '/')
    (htail : tail.head? = some '/') :
    p <+: stripTrailingSlash u ++ tail := by
  have hpne : p ≠ [] := by
    intro hnil
    rw [hnil] at hlast
    simp at hlast
  cases tail with
  | nil => simp at htail
  | cons c rest =>
    have hc : c = '/' := by simpa using htail
    subst hc
    unfold stripTrailingSlash
    split
    next hu =>
      rcases Nat.lt_or_ge p.length u.length with hlt | hge
      · have h1 : p <+: u.dropLast := by
          have h2 := hp.take (u.length - 1)
          rwa [List.take_of_length_le (by omega), ← List.dropLast_eq_take] at h2
        exact h1.trans (List.prefix_append _ _)
      · have hlen : p.length = u.length := Nat.le_antisymm hp.length_le hge
        have hpu : p = u := hp.eq_of_length hlen
        subst hpu
        have h3 : p.dropLast ++ ['/'] = p := List.dropLast_append_getLast? _ hlast
        have h4 : p.dropLast ++ ('/' :: rest) = (p.dropLast ++ ['/']) ++ rest := by
          simp
        rw [h4, h3]
        exact List.prefix_append _ _
    next hu =>
      exact hp.trans (List.prefix_append _ _)

/-- **C10**: for every non-empty input, `processSitemapUrl` returns a
URL starting with `http://` or `https://` (prepending `https://` when
the trimmed input starts with neither); if the protocol-normalized
string ends with `.xml` it is returned unchanged, and otherwise one
trailing slash (if present) is removed and `/sitemap_index.xml` is
appended. -/
theorem processSitemapUrl_spec (input : List Char) (hne : input ≠ []) :
    ("http://".toList <+: processSitemapUrl input ∨
      "https://".toList <+: processSitemapUrl input) ∧
    ("http://".toList.isPrefixOf (jsTrim input) = false ∧
        "https://".toList.isPrefixOf (jsTrim input) = false →
      addProtocol (jsTrim input) = "https://".toList ++ jsTrim input) ∧
    (".xml".toList.isSuffixOf (addProtocol (jsTrim input)) = true →
      processSitemapUrl input = addProtocol (jsTrim input)) ∧
    (".xml".toList.isSuffixOf (addProtocol (jsTrim input)) = false →
      processSitemapUrl input =
        stripTrailingSlash (addProtocol (jsTrim input)) ++
          "/sitemap_index.xml".toList) := by
  have hshape : processSitemapUrl input =
      (if ".xml".toList.isSuffixOf (addProtocol (jsTrim input)) = true then
        addProtocol (jsTrim input)
      else
        stripTrailingSlash (addProtocol (jsTrim input)) ++
          "/sitemap_index.xml".toList) := rfl
  refine ⟨?_, ?_, ?_, ?_⟩
  · rw [hshape]
    split
    next => exact addProtocol_protocol (jsTrim input)
    next =>
      rcases addProtocol_protocol (jsTrim input) with hpre | hpre
      · exact Or.inl
          (prefix_stripSlash_append _ _ _ hpre (by decide) (by decide))
      · exact Or.inr
          (prefix_stripSlash_append _ _ _ hpre (by decide) (by decide))
  · intro hcond
    unfold addProtocol
    rw [if_pos hcond]
  · intro hx
    rw [hshape, if_pos hx]
  · intro hx
    rw [hshape, if_neg (by rw [hx]; exact Bool.false_ne_true)]

/-- Witness for C10 at the concrete input `  example.com/ `: the result
is an `https://` URL with `/sitemap_index.xml` appended. -/
theorem processSitemapUrl_spec_witness :
    ("  example.com/ ".toList ≠ [] ∧
      ("http://".toList <+: processSitemapUrl "  example.com/ ".toList ∨
        "https://".toList <+: processSitemapUrl "  example.com/ ".toList)) ∧
    processSitemapUrl "  example.com/ ".toList =
      "https://example.com/sitemap_index.xml".toList :=
  ⟨⟨by decide, (processSitemapUrl_spec "  example.com/ ".toList (by decide)).1⟩,
    by decide⟩

/-! ## C7 and C8: the URL collector deduplicates and degrades gracefully -/

theorem collectChildUrls_nodup (net : String → Nat → Option SitemapDoc) :
    ∀ (sitemaps : List String) (acc : List String), acc.Nodup →
      (collectChildUrls net sitemaps acc).Nodup := by
  intro sitemaps
  induction sitemaps with
  | nil => intro acc h; exact h
  | cons smUrl rest ih =>
    intro acc h
    cases hf : fetchXML (net smUrl) with
    | none => simpa [collectChildUrls, hf] using ih acc h
    | some d =>
      simpa [collectChildUrls, hf] using
        ih _ (foldl_setAdd_nodup _ _ h)

theorem mem_collectChildUrls (net : String → Nat → Option SitemapDoc) :
    ∀ (sitemaps : List String) (acc : List String) (y : String),
      y ∈ collectChildUrls net sitemaps acc ↔
        y ∈ acc ∨ ∃ sm ∈ sitemaps, ∃ cd, fetchXML (net sm) = some cd ∧
          y ∈ extractUrlsFromSitemap cd := by
  intro sitemaps
  induction sitemaps with
  | nil => intro acc y; simp [collectChildUrls]
  | cons smUrl rest ih =>
    intro acc y
    cases hf : fetchXML (net smUrl) with
    | none =>
      rw [collectChildUrls, hf, ih]
      constructor
      · rintro (hy | ⟨sm, hsm, cd, hcd, hycd⟩)
        · exact Or.inl hy
        · exact Or.inr ⟨sm, List.mem_cons_of_mem _ hsm, cd, hcd, hycd⟩
      · rintro (hy | ⟨sm, hsm, cd, hcd, hycd⟩)
        · exact Or.inl hy
        · rcases List.mem_cons.mp hsm with rfl | hsm
          · rw [hf] at hcd
            exact absurd hcd (by simp)
          · exact Or.inr ⟨sm, hsm, cd, hcd, hycd⟩
    | some d =>
      rw [collectChildUrls, hf, ih, mem_foldl_setAdd]
      constructor
      · rintro (⟨hy | hy⟩ | ⟨sm, hsm, cd, hcd, hycd⟩)
        · exact Or.inl hy
        · exact Or.inr ⟨smUrl, List.mem_cons_self _ _, d, hf, hy⟩
        · exact Or.inr ⟨sm, List.mem_cons_of_mem _ hsm, cd, hcd, hycd⟩
      · rintro (hy | ⟨sm, hsm, cd, hcd, hycd⟩)
        · exact Or.inl (Or.inl hy)
        · rcases List.mem_cons.mp hsm with rfl | hsm
          · rw [hf] at hcd
            obtain rfl : d = cd := by injection hcd
            exact Or.inl (Or.inr hycd)
          · exact Or.inr ⟨sm, hsm, cd, hcd, hycd⟩

theorem getAllUrls_nodup (net : String → Nat → Option SitemapDoc)
    (sitemapUrl : String) : (getAllUrls net sitemapUrl).Nodup := by
  unfold getAllUrls
  cases hf : fetchXML (net sitemapUrl) with
  | none => exact List.nodup_nil
  | some d =>
    exact foldl_setAdd_nodup _ _
      (collectChildUrls_nodup net _ _ List.nodup_nil)

theorem mem_getAllUrls (net : String → Nat → Option SitemapDoc)
    (sitemapUrl : String) (d : SitemapDoc)
    (hf : fetchXML (net sitemapUrl) = some d) (y : String) :
    y ∈ getAllUrls net sitemapUrl ↔
      (∃ sm ∈ getSitemapsFromIndex d, ∃ cd, fetchXML (net sm) = some cd ∧
        y ∈ extractUrlsFromSitemap cd) ∨
      y ∈ extractUrlsFromSitemap d := by
  unfold getAllUrls
  rw [hf]
  rw [mem_foldl_setAdd, mem_collectChildUrls]
  simp only [List.not_mem_nil, false_or]

/-- The concrete overlap scenario of the spec: a sitemap index with two
child sitemaps of three URLs each that share exactly one URL. -/
def overlapNet : String → Nat → Option SitemapDoc := fun url _ =>
  if url = "https://site.example/sitemap_index.xml" then
    some { urlItems := [],
           sitemapItems := [some "https://site.example/post-sitemap.xml",
                            some "https://site.example/page-sitemap.xml"] }
  else if url = "https://site.example/post-sitemap.xml" then
    some { urlItems := [some "https://site.example/p1",
                        some "https://site.example/p2",
                        some "https://site.example/shared"],
           sitemapItems := [] }
  else if url = "https://site.example/page-sitemap.xml" then
    some { urlItems := [some "https://site.example/shared",
                        some "https://site.example/p3",
                        some "https://site.example/p4"],
           sitemapItems := [] }
  else none

/-- **C7**: the URL collector's output never contains a duplicate URL,
for every network behaviour; and on the spec's concrete scenario — an
index with two child sitemaps of three URLs each sharing exactly one
URL — it returns exactly the 5 unique URLs, in first-discovery order. -/
theorem getAllUrls_nodup_and_overlap_scenario :
    (∀ (net : String → Nat → Option SitemapDoc) (sitemapUrl : String),
        (getAllUrls net sitemapUrl).Nodup) ∧
    getAllUrls overlapNet "https://site.example/sitemap_index.xml" =
      ["https://site.example/p1", "https://site.example/p2",
       "https://site.example/shared", "https://site.example/p3",
       "https://site.example/p4"] :=
  ⟨getAllUrls_nodup, by decide⟩

/-- A network on which every fetch succeeds but the root document is an
empty (non-index, non-urlset) document. -/
def emptyDocNet : String → Nat → Option SitemapDoc := fun _ _ =>
  some { urlItems := [], sitemapItems := [] }

/-- **C8 counterexample**: it is not true that `getAllUrls` returns the
empty sequence only when the root fetch fails: with a root document
that parses fine but yields no child sitemaps and no URLs, the root
fetch succeeds yet the collector returns `[]`. -/
theorem getAllUrls_empty_only_on_root_failure_false :
    ¬ (∀ (net : String → Nat → Option SitemapDoc) (sitemapUrl : String),
        getAllUrls net sitemapUrl = [] →
          fetchXML (net sitemapUrl) = none) := by
  intro hclaim
  have h := hclaim emptyDocNet "https://site.example/sitemap_index.xml"
    (by decide)
  exact absurd h (by decide)

/-- **C8 (amended)**: `getAllUrls` returns `[]` whenever the root fetch
fails; a child sitemap whose fetch fails after its retries is skipped
and does not abort collection, so every URL extracted from a
successfully fetched child — and from the root treated as a direct
sitemap — still appears in the result; and when the root fetch
succeeds, the result is empty iff the root and every successfully
fetched child yield no URLs. -/
theorem getAllUrls_failure_semantics (net : String → Nat → Option SitemapDoc)
    (sitemapUrl : String) :
    (fetchXML (net sitemapUrl) = none → getAllUrls net sitemapUrl = []) ∧
    (∀ d, fetchXML (net sitemapUrl) = some d →
      (∀ sm ∈ getSitemapsFromIndex d, ∀ cd, fetchXML (net sm) = some cd →
          ∀ u ∈ extractUrlsFromSitemap cd, u ∈ getAllUrls net sitemapUrl) ∧
      (∀ u ∈ extractUrlsFromSitemap d, u ∈ getAllUrls net sitemapUrl) ∧
      (getAllUrls net sitemapUrl = [] ↔
        extractUrlsFromSitemap d = [] ∧
        ∀ sm ∈ getSitemapsFromIndex d, ∀ cd, fetchXML (net sm) = some cd →
          extractUrlsFromSitemap cd = [])) := by
  constructor
  · intro hf
    unfold getAllUrls
    rw [hf]
  · intro d hf
    refine ⟨?_, ?_, ?_⟩
    · intro sm hsm cd hcd u hu
      exact (mem_getAllUrls net sitemapUrl d hf u).mpr
        (Or.inl ⟨sm, hsm, cd, hcd, hu⟩)
    · intro u hu
      exact (mem_getAllUrls net sitemapUrl d hf u).mpr (Or.inr hu)
    · constructor
      · intro hnil
        have hmem : ∀ u : String, u ∉ getAllUrls net sitemapUrl := by
          rw [hnil]
          intro u
          exact List.not_mem_nil u
        constructor
        · rw [List.eq_nil_iff_forall_not_mem]
          intro u hu
          exact hmem u ((mem_getAllUrls net sitemapUrl d hf u).mpr (Or.inr hu))
        · intro sm hsm cd hcd
          rw [List.eq_nil_iff_forall_not_mem]
          intro u hu
          exact hmem u ((mem_getAllUrls net sitemapUrl d hf u).mpr
            (Or.inl ⟨sm, hsm, cd, hcd, hu⟩))
      · rintro ⟨hroot, hchild⟩
        rw [List.eq_nil_iff_forall_not_mem]
        intro u hu
        rcases (mem_getAllUrls net sitemapUrl d hf u).mp hu with
          ⟨sm, hsm, cd, hcd, hucd⟩ | hud
        · have := hchild sm hsm cd hcd
          rw [this] at hucd
          exact List.not_mem_nil u hucd
        · rw [hroot] at hud
          exact List.not_mem_nil u hud

/-- The child-failure scenario: an index with two children where the
first child's fetch always fails and the second succeeds. -/
def childFailNet : String → Nat → Option SitemapDoc := fun url _ =>
  if url = "https://site.example/sitemap_index.xml" then
    some { urlItems := [],
           sitemapItems := [some "https://site.example/a.xml",
                            some "https://site.example/b.xml"] }
  else if url = "https://site.example/b.xml" then
    some { urlItems := [some "https://site.example/q1",
                        some "https://site.example/q2"],
           sitemapItems := [] }
  else none

/-- The root document `childFailNet` serves. -/
def childFailRootDoc : SitemapDoc :=
  { urlItems := [],
    sitemapItems := [some "https://site.example/a.xml",
                     some "https://site.example/b.xml"] }

/-- The document the surviving child of `childFailNet` serves. -/
def childFailBDoc : SitemapDoc :=
  { urlItems := [some "https://site.example/q1",
                 some "https://site.example/q2"],
    sitemapItems := [] }

/-- Witness for the amended C8: with child `a.xml` failing every fetch
attempt, a URL of the surviving child `b.xml` is still collected. -/
theorem getAllUrls_failure_semantics_witness :
    "https://site.example/q1" ∈
      getAllUrls childFailNet "https://site.example/sitemap_index.xml" :=
  ((getAllUrls_failure_semantics childFailNet
      "https://site.example/sitemap_index.xml").2 childFailRootDoc
      (by decide)).1 "https://site.example/b.xml" (by decide) childFailBDoc
    (by decide) "https://site.example/q1" (by decide)

/-! ## Unfolding lemmas for `runAccessibilityCheck` -/

theorem runCheck_ok (cfg : Config) (check : Nat → AttemptResult) (url : String)
    (a : Nat) (tracked : List Nat) (s : CheckSuccess)
    (hc : check a = Except.ok s) :
    runAccessibilityCheck cfg check url a tracked =
      { outcome := { url := url, issues := s.issues, status := Status.success,
                     errorMessage := none,
                     documentTitle := s.documentTitle.getD url,
                     attempts := a, isRetryable := none },
        tracked := match s.browser with
          | some b => setAdd tracked b
          | none => tracked,
        backoffs := [] } := by
  rw [runAccessibilityCheck, hc]

theorem runCheck_retry (cfg : Config) (check : Nat → AttemptResult)
    (url : String) (a : Nat) (tracked : List Nat) (e : CheckFailure)
    (hc : check a = Except.error e) (hret : isRetryableError e.message = true)
    (hlt : a < cfg.maxRetries) :
    runAccessibilityCheck cfg check url a tracked =
      { runAccessibilityCheck cfg check url (a + 1) tracked with
        backoffs := cfg.initialRetryDelay * cfg.retryMultiplier ^ (a - 1) ::
          (runAccessibilityCheck cfg check url (a + 1) tracked).backoffs } := by
  rw [runAccessibilityCheck, hc]
  simp [hret, hlt]

theorem runCheck_stop (cfg : Config) (check : Nat → AttemptResult)
    (url : String) (a : Nat) (tracked : List Nat) (e : CheckFailure)
    (hc : check a = Except.error e)
    (hstop : ¬(isRetryableError e.message = true ∧ a < cfg.maxRetries)) :
    runAccessibilityCheck cfg check url a tracked =
      { outcome := { url := url, issues := [], status := Status.error,
                     errorMessage := some e.message, documentTitle := url,
                     attempts := a,
                     isRetryable := some (isRetryableError e.message) },
        tracked := tracked, backoffs := [] } := by
  rw [runAccessibilityCheck, hc]
  simp [hstop]

/-! ## The master lemma about the retry loop -/

/-- Every property of `runAccessibilityCheck` the claims need, proved
at once by induction on the attempts remaining
(`cfg.maxRetries - a`): the outcome keeps the URL; the attempt count
lies in `[a, maxRetries]`; success/error of the outcome mirrors the
checker result at the final attempt; the retryable flag is the
classifier verdict on the final error; a retryable error outcome only
occurs at the retry bound; tracking registers exactly the final
successful result's exposed browser; and the backoff log is the
geometric series indexed by the failed attempt numbers. -/
theorem runCheck_spec (cfg : Config) (check : Nat → AttemptResult)
    (url : String) :
    ∀ (n a : Nat) (tracked : List Nat) (r : RunResult),
      cfg.maxRetries - a = n → a ≤ cfg.maxRetries →
      r = runAccessibilityCheck cfg check url a tracked →
      r.outcome.url = url ∧
      a ≤ r.outcome.attempts ∧
      r.outcome.attempts ≤ cfg.maxRetries ∧
      (∀ s, check r.outcome.attempts = Except.ok s →
        r.outcome.status = Status.success ∧ r.outcome.isRetryable = none ∧
        r.tracked = (match s.browser with
          | some b => setAdd tracked b
          | none => tracked)) ∧
      (∀ e, check r.outcome.attempts = Except.error e →
        r.outcome.status = Status.error ∧
        r.outcome.isRetryable = some (isRetryableError e.message) ∧
        r.outcome.errorMessage = some e.message ∧
        r.tracked = tracked) ∧
      (r.outcome.status = Status.success →
        ∃ s, check r.outcome.attempts = Except.ok s) ∧
      (r.outcome.status = Status.error →
        ∃ e, check r.outcome.attempts = Except.error e) ∧
      (r.outcome.status = Status.error → r.outcome.isRetryable = some true →
        r.outcome.attempts = cfg.maxRetries) ∧
      r.backoffs = (List.range' a (r.outcome.attempts - a)).map
        (fun N => cfg.initialRetryDelay * cfg.retryMultiplier ^ (N - 1)) := by
  intro n
  induction n with
  | zero =>
    intro a tracked r hn ha hr
    have haeq : a = cfg.maxRetries := by omega
    cases hc : check a with
    | ok s =>
      rw [hr, runCheck_ok cfg check url a tracked s hc]
      dsimp only
      refine ⟨rfl, Nat.le_refl a, ha, ?_, ?_, ?_, ?_, ?_, ?_⟩
      · intro s2 hs2
        rw [hc] at hs2
        obtain rfl : s = s2 := by injection hs2
        exact ⟨rfl, rfl, rfl⟩
      · intro e he
        rw [hc] at he
        exact absurd he (by simp)
      · intro _
        exact ⟨s, hc⟩
      · intro hst
        exact absurd hst (by simp)
      · intro hst
        exact absurd hst (by simp)
      · simp
    | error e =>
      rw [hr, runCheck_stop cfg check url a tracked e hc (by omega)]
      dsimp only
      refine ⟨rfl, Nat.le_refl a, ha, ?_, ?_, ?_, ?_, ?_, ?_⟩
      · intro s hs
        rw [hc] at hs
        exact absurd hs (by simp)
      · intro e2 he2
        rw [hc] at he2
        obtain rfl : e = e2 := by injection he2
        exact ⟨rfl, rfl, rfl, rfl⟩
      · intro hst
        exact absurd hst (by simp)
      · intro _
        exact ⟨e, hc⟩
      · intro _ _
        exact haeq
      · simp
  | succ n ih =>
    intro a tracked r hn ha hr
    cases hc : check a with
    | ok s =>
      rw [hr, runCheck_ok cfg check url a tracked s hc]
      dsimp only
      refine ⟨rfl, Nat.le_refl a, ha, ?_, ?_, ?_, ?_, ?_, ?_⟩
      · intro s2 hs2
        rw [hc] at hs2
        obtain rfl : s = s2 := by injection hs2
        exact ⟨rfl, rfl, rfl⟩
      · intro e he
        rw [hc] at he
        exact absurd he (by simp)
      · intro _
        exact ⟨s, hc⟩
      · intro hst
        exact absurd hst (by simp)
      · intro hst
        exact absurd hst (by simp)
      · simp
    | error e =>
      by_cases hret : isRetryableError e.message = true
      · have hlt : a < cfg.maxRetries := by omega
        obtain ⟨ih1, ih2, ih3, ih4, ih5, ih6, ih7, ih8, ih9⟩ :=
          ih (a + 1) tracked (runAccessibilityCheck cfg check url (a + 1) tracked)
            (by omega) (by omega) rfl
        rw [hr, runCheck_retry cfg check url a tracked e hc hret hlt]
        dsimp only
        refine ⟨ih1, by omega, ih3, ih4, ih5, ih6, ih7, ih8, ?_⟩
        have hsplit :
            (runAccessibilityCheck cfg check url (a + 1) tracked).outcome.attempts - a =
              ((runAccessibilityCheck cfg check url (a + 1) tracked).outcome.attempts -
                (a + 1)) + 1 := by
          omega
        rw [hsplit, List.range'_succ, List.map_cons, ← ih9]
      · rw [hr, runCheck_stop cfg check url a tracked e hc (by tauto)]
        dsimp only
        refine ⟨rfl, Nat.le_refl a, ha, ?_, ?_, ?_, ?_, ?_, ?_⟩
        · intro s hs
          rw [hc] at hs
          exact absurd hs (by simp)
        · intro e2 he2
          rw [hc] at he2
          obtain rfl : e = e2 := by injection he2
          exact ⟨rfl, rfl, rfl, rfl⟩
        · intro hst
          exact absurd hst (by simp)
        · intro _
          exact ⟨e, hc⟩
        · intro _ hsome
          have : isRetryableError e.message = true := by
            injection hsome
          exact absurd this hret
        · simp

/-! ## C2: attempt bounds, success/error semantics, retryable flag -/

/-- **C2**: for every job, the outcome's attempt count satisfies
`1 ≤ attempts ≤ maxRetries`; the outcome is a success only if the final
attempt's check succeeded; the retryable flag of an error outcome is
exactly the classifier's verdict on the final error (so
`retryable = false` only when the classifier returned non-retryable);
and a retryable error outcome occurs only once the attempt count has
reached `maxRetries`. -/
theorem outcome_attempt_and_retry_semantics (cfg : Config)
    (check : Nat → AttemptResult) (url : String) (tracked : List Nat)
    (r : RunResult) (hmr : 1 ≤ cfg.maxRetries)
    (hr : r = runAccessibilityCheck cfg check url 1 tracked) :
    1 ≤ r.outcome.attempts ∧ r.outcome.attempts ≤ cfg.maxRetries ∧
    (r.outcome.status = Status.success →
      ∃ s, check r.outcome.attempts = Except.ok s) ∧
    (∀ e, check r.outcome.attempts = Except.error e →
      r.outcome.isRetryable = some (isRetryableError e.message)) ∧
    (r.outcome.status = Status.error → r.outcome.isRetryable = some true →
      r.outcome.attempts = cfg.maxRetries) := by
  obtain ⟨h1, h2, h3, h4, h5, h6, h7, h8, h9⟩ :=
    runCheck_spec cfg check url (cfg.maxRetries - 1) 1 tracked r rfl hmr hr
  exact ⟨h2, h3, h6, fun e he => (h5 e he).2.1, h8⟩

/-- A checker that throws a navigation timeout on every attempt (the
spec's retry-exhaustion scenario). -/
def alwaysNavTimeout : Nat → AttemptResult := fun _ =>
  Except.error { message := "navigation timeout", sessionOpened := none }

/-- Witness for C2 on the spec scenario: a check that always throws
`navigation timeout` with `maxRetries = 3` ends with `attempts = 3`,
status error, `retryable = true`, within the bound. -/
theorem outcome_attempt_and_retry_semantics_witness :
    (1 ≤ defaultConfig.maxRetries ∧
      (runAccessibilityCheck defaultConfig alwaysNavTimeout
          "https://site.example/p" 1 []).outcome.attempts ≤
        defaultConfig.maxRetries) ∧
    (runAccessibilityCheck defaultConfig alwaysNavTimeout
        "https://site.example/p" 1 []).outcome.attempts = 3 ∧
    (runAccessibilityCheck defaultConfig alwaysNavTimeout
        "https://site.example/p" 1 []).outcome.status = Status.error ∧
    (runAccessibilityCheck defaultConfig alwaysNavTimeout
        "https://site.example/p" 1 []).outcome.isRetryable = some true :=
  ⟨⟨by decide,
      (outcome_attempt_and_retry_semantics defaultConfig alwaysNavTimeout
          "https://site.example/p" [] _ (by decide) rfl).2.1⟩,
    by
      have h : isRetryableError "navigation timeout" = true := by decide
      simp [runAccessibilityCheck, alwaysNavTimeout, h, defaultConfig]⟩

/-! ## C4: which opened handles get registered in the tracker -/

/-- A checker that throws a non-retryable error having internally
opened browser session 42 (never surfaced through the thrown error). -/
def invalidSelectorCheck : Nat → AttemptResult := fun _ =>
  Except.error { message := "invalid selector", sessionOpened := some 42 }

/-- **C4 counterexample**: it is not true that every check attempt
(successful or failed) that opens a browser session handle registers
that handle in `browserInstances` before the job runner returns: a
failed attempt's internally opened session is never surfaced to the
code (`results.browser` exists only on the success path), so after a
failing run the tracker is still empty. -/
theorem opened_handle_always_tracked_false :
    ¬ (∀ (cfg : Config) (check : Nat → AttemptResult) (url : String)
        (tracked : List Nat) (N : Nat),
        1 ≤ N →
        N ≤ (runAccessibilityCheck cfg check url 1 tracked).outcome.attempts →
        ∀ b ∈ attemptOpenedHandles (check N),
          b ∈ (runAccessibilityCheck cfg check url 1 tracked).tracked) := by
  intro hclaim
  have heval : runAccessibilityCheck defaultConfig invalidSelectorCheck
      "https://site.example/p" 1 [] =
        { outcome := { url := "https://site.example/p", issues := [],
                       status := Status.error,
                       errorMessage := some "invalid selector",
                       documentTitle := "https://site.example/p",
                       attempts := 1,
                       isRetryable :=
                         some (isRetryableError "invalid selector") },
          tracked := [], backoffs := [] } :=
    runCheck_stop defaultConfig invalidSelectorCheck "https://site.example/p"
      1 [] _ rfl (by rintro ⟨habs, -⟩; exact absurd habs (by decide))
  have h42 := hclaim defaultConfig invalidSelectorCheck
    "https://site.example/p" [] 1 (Nat.le_refl 1)
    (by rw [heval]) 42 (by decide)
  rw [heval] at h42
  exact List.not_mem_nil 42 h42

/-- **C4 (amended)**: the handle a job registers is exactly the one the
final *successful* checker result exposes (`results.browser`): on a
success outcome any exposed handle is in the tracker before the runner
returns, and an error outcome leaves the tracker unchanged — handles
opened by failed attempts are never surfaced and never registered. -/
theorem success_handle_tracked (cfg : Config) (check : Nat → AttemptResult)
    (url : String) (tracked : List Nat) (r : RunResult)
    (hmr : 1 ≤ cfg.maxRetries)
    (hr : r = runAccessibilityCheck cfg check url 1 tracked) :
    (∀ s, check r.outcome.attempts = Except.ok s →
      r.outcome.status = Status.success ∧
      ∀ b, s.browser = some b → b ∈ r.tracked) ∧
    (r.outcome.status = Status.error → r.tracked = tracked) := by
  obtain ⟨h1, h2, h3, h4, h5, h6, h7, h8, h9⟩ :=
    runCheck_spec cfg check url (cfg.maxRetries - 1) 1 tracked r rfl hmr hr
  constructor
  · intro s hs
    obtain ⟨hst, -, htr⟩ := h4 s hs
    refine ⟨hst, ?_⟩
    intro b hb
    rw [htr, hb]
    exact (mem_setAdd tracked b b).mpr (Or.inr rfl)
  · intro hst
    obtain ⟨e, he⟩ := h7 hst
    exact (h5 e he).2.2.2

/-- A checker that succeeds immediately, exposing browser handle 7. -/
def okWithBrowser : Nat → AttemptResult := fun _ =>
  Except.ok { issues := [], documentTitle := some "Home", browser := some 7 }

/-- Witness for the amended C4: a successful check exposing browser 7
leaves 7 registered in the tracker. -/
theorem success_handle_tracked_witness :
    7 ∈ (runAccessibilityCheck defaultConfig okWithBrowser
        "https://site.example/p" 1 []).tracked :=
  ((success_handle_tracked defaultConfig okWithBrowser
      "https://site.example/p" [] _ (by decide) rfl).1
    { issues := [], documentTitle := some "Home", browser := some 7 }
    rfl).2 7 rfl

/-! ## C6: the backoff series and its monotonicity -/

/-- **C6**: the backoff delays a job actually waits are
`INITIAL_RETRY_DELAY * RETRY_MULTIPLIER ^ (N - 1)` for the consecutive
failed attempt numbers `N = 1, …, attempts - 1` (the delay logged
before attempt `N + 1` is the `N`-th term); and for a multiplier `≥ 1`
(and a nonnegative initial delay) that series is monotonically
non-decreasing in `N`. -/
theorem backoff_formula_and_monotone (cfg : Config)
    (hm : 1 ≤ cfg.retryMultiplier) (hd : 0 ≤ cfg.initialRetryDelay) :
    (∀ (check : Nat → AttemptResult) (url : String) (tracked : List Nat)
        (r : RunResult), 1 ≤ cfg.maxRetries →
        r = runAccessibilityCheck cfg check url 1 tracked →
        r.backoffs = (List.range' 1 (r.outcome.attempts - 1)).map
          (fun N => cfg.initialRetryDelay * cfg.retryMultiplier ^ (N - 1))) ∧
    (∀ N M : Nat, N ≤ M →
      cfg.initialRetryDelay * cfg.retryMultiplier ^ (N - 1) ≤
        cfg.initialRetryDelay * cfg.retryMultiplier ^ (M - 1)) := by
  constructor
  · intro check url tracked r hmr hr
    exact (runCheck_spec cfg check url (cfg.maxRetries - 1) 1 tracked r rfl
      hmr hr).2.2.2.2.2.2.2.2
  · intro N M hNM
    apply mul_le_mul_of_nonneg_left _ hd
    exact pow_le_pow_right₀ hm (by omega)

/-- Witness for C6 with the default configuration (delay 5000 ms,
multiplier 2): the monotonicity instance 5000·2⁰ ≤ 5000·2¹ and the
backoff-series law at a concrete always-failing run. -/
theorem backoff_formula_and_monotone_witness :
    ((1 : ℚ) ≤ defaultConfig.retryMultiplier ∧
      (0 : ℚ) ≤ defaultConfig.initialRetryDelay) ∧
    defaultConfig.initialRetryDelay *
        defaultConfig.retryMultiplier ^ (1 - 1) ≤
      defaultConfig.initialRetryDelay *
        defaultConfig.retryMultiplier ^ (2 - 1) ∧
    (runAccessibilityCheck defaultConfig alwaysNavTimeout
        "https://site.example/p" 1 []).backoffs =
      (List.range' 1 ((runAccessibilityCheck defaultConfig alwaysNavTimeout
          "https://site.example/p" 1 []).outcome.attempts - 1)).map
        (fun N => defaultConfig.initialRetryDelay *
          defaultConfig.retryMultiplier ^ (N - 1)) :=
  ⟨⟨by norm_num [defaultConfig], by norm_num [defaultConfig]⟩,
    (backoff_formula_and_monotone defaultConfig
        (by norm_num [defaultConfig]) (by norm_num [defaultConfig])).2 1 2
      (by omega),
    (backoff_formula_and_monotone defaultConfig
        (by norm_num [defaultConfig]) (by norm_num [defaultConfig])).1
      alwaysNavTimeout "https://site.example/p" [] _ (by decide) rfl⟩

/-! ## C1 and C9: the batch coordinator -/

theorem runCheck_url (cfg : Config) (check : Nat → AttemptResult)
    (url : String) :
    ∀ (n a : Nat) (tracked : List Nat), cfg.maxRetries - a = n →
      (runAccessibilityCheck cfg check url a tracked).outcome.url = url := by
  intro n
  induction n with
  | zero =>
    intro a tracked hn
    cases hc : check a with
    | ok s => rw [runCheck_ok cfg check url a tracked s hc]
    | error e => rw [runCheck_stop cfg check url a tracked e hc (by omega)]
  | succ n ih =>
    intro a tracked hn
    cases hc : check a with
    | ok s => rw [runCheck_ok cfg check url a tracked s hc]
    | error e =>
      by_cases hret : isRetryableError e.message = true
      · by_cases hlt : a < cfg.maxRetries
        · rw [runCheck_retry cfg check url a tracked e hc hret hlt]
          exact ih (a + 1) tracked (by omega)
        · rw [runCheck_stop cfg check url a tracked e hc (by tauto)]
      · rw [runCheck_stop cfg check url a tracked e hc (by tauto)]

theorem processUrlBatch_urls (cfg : Config)
    (check : String → Nat → AttemptResult) :
    ∀ (batch : List String) (tracked : List Nat),
      (processUrlBatch cfg check batch tracked).1.map Outcome.url = batch := by
  intro batch
  induction batch with
  | nil => intro tracked; rfl
  | cons url rest ih =>
    intro tracked
    simp only [processUrlBatch, List.map_cons]
    rw [runCheck_url cfg (check url) url (cfg.maxRetries - 1) 1 _ rfl, ih]

theorem sliceBatches_length (urls : List String) (B : Nat) :
    ∀ (rem i : Nat), (sliceBatches urls B i rem).length = rem := by
  intro rem
  induction rem with
  | zero => intro i; rfl
  | succ rem ih =>
    intro i
    simp only [sliceBatches, List.length_cons, ih]

theorem sliceBatches_flatten (urls : List String) (B : Nat) :
    ∀ (rem i : Nat), urls.length ≤ i * B + rem * B →
      (sliceBatches urls B i rem).flatten = urls.drop (i * B) := by
  intro rem
  induction rem with
  | zero =>
    intro i hlen
    rw [List.drop_eq_nil_of_le (by omega)]
    rfl
  | succ rem ih =>
    intro i hlen
    simp only [sliceBatches, List.flatten_cons]
    rw [ih (i + 1) (by
      have h1 : (i + 1) * B + rem * B = i * B + (rem + 1) * B := by ring
      omega)]
    have h2 : (i + 1) * B = i * B + B := by ring
    rw [h2, ← List.drop_drop]
    exact List.take_append_drop B (urls.drop (i * B))

theorem sliceBatches_sizes_le (urls : List String) (B : Nat) :
    ∀ (rem i : Nat), ∀ b ∈ sliceBatches urls B i rem, b.length ≤ B := by
  intro rem
  induction rem with
  | zero => intro i b hb; exact absurd hb (List.not_mem_nil b)
  | succ rem ih =>
    intro i b hb
    rcases List.mem_cons.mp hb with rfl | hb
    · rw [List.length_take]
      exact Nat.min_le_left _ _
    · exact ih (i + 1) b hb

theorem sliceBatches_getD (urls : List String) (B : Nat) :
    ∀ (rem i0 i : Nat), i < rem →
      (sliceBatches urls B i0 rem).getD i [] =
        (urls.drop ((i0 + i) * B)).take B := by
  intro rem
  induction rem with
  | zero => intro i0 i hi; omega
  | succ rem ih =>
    intro i0 i hi
    cases i with
    | zero => rfl
    | succ i =>
      have h1 : (sliceBatches urls B i0 (rem + 1)).getD (i + 1) [] =
          (sliceBatches urls B (i0 + 1) rem).getD i [] := rfl
      rw [h1, ih (i0 + 1) i (by omega)]
      have h2 : i0 + 1 + i = i0 + (i + 1) := by omega
      rw [h2]

/-- `n ≤ ceil(n / B) * B` for positive `B`: the batch count covers the
whole URL list. -/
theorem le_numBatches_mul (n B : Nat) (hB : 1 ≤ B) :
    n ≤ numBatches n B * B := by
  rcases Nat.eq_zero_or_pos n with rfl | hn
  · exact Nat.zero_le _
  · unfold numBatches
    have he : n + B - 1 = n - 1 + B := by omega
    rw [he, Nat.add_div_right _ (show 0 < B by omega), Nat.succ_mul]
    have h1 := Nat.div_add_mod' (n - 1) B
    have h2 : (n - 1) % B < B := Nat.mod_lt _ (by omega)
    generalize ht : (n - 1) / B * B = t at h1 ⊢
    generalize hr : (n - 1) % B = r at h1 h2
    omega

/-- Every batch before the last is full: if `i + 1 < ceil(n / B)` then
`i * B + B ≤ n`. -/
theorem full_batch_bound (n B i : Nat) (hB : 1 ≤ B)
    (hi : i + 1 < numBatches n B) : i * B + B ≤ n := by
  have h1 : (i + 2) * B ≤ numBatches n B * B :=
    Nat.mul_le_mul_right B (by omega)
  have h2 : numBatches n B * B ≤ n + B - 1 := by
    unfold numBatches
    exact Nat.div_mul_le_self _ _
  have h3 : (i + 2) * B = i * B + 2 * B := by ring
  have h4 : i * B + 2 * B ≤ n + B - 1 := by
    rw [← h3]
    exact le_trans h1 h2
  generalize ht : i * B = t at h4 ⊢
  omega

theorem mainBatchLoop_results (cfg : Config)
    (check : String → Nat → AttemptResult) (urls : List String)
    (batches : Nat) :
    ∀ (rem i : Nat) (tracked : List Nat),
      (mainBatchLoop cfg check urls batches i rem tracked).results.map
          Outcome.url =
        (sliceBatches urls cfg.batchSize i rem).flatten := by
  intro rem
  induction rem with
  | zero => intro i tracked; rfl
  | succ rem ih =>
    intro i tracked
    simp only [mainBatchLoop, sliceBatches, List.flatten_cons, List.map_append]
    rw [processUrlBatch_urls, ih]

theorem mainBatchLoop_events_succ (cfg : Config)
    (check : String → Nat → AttemptResult) (urls : List String)
    (batches i rem : Nat) (tracked : List Nat) :
    (mainBatchLoop cfg check urls batches i (rem + 1) tracked).events =
      RunEvent.batch ((urls.drop (i * cfg.batchSize)).take cfg.batchSize) ::
        (if i < batches - 1 then
          RunEvent.pause (cfg.delayBetweenRequests * 2) ::
            (mainBatchLoop cfg check urls batches (i + 1) rem
              (processUrlBatch cfg check
                ((urls.drop (i * cfg.batchSize)).take cfg.batchSize)
                tracked).2).events
        else
          (mainBatchLoop cfg check urls batches (i + 1) rem
            (processUrlBatch cfg check
              ((urls.drop (i * cfg.batchSize)).take cfg.batchSize)
              tracked).2).events) := rfl

theorem mainBatchLoop_events (cfg : Config)
    (check : String → Nat → AttemptResult) (urls : List String)
    (batches : Nat) :
    ∀ (rem i : Nat) (tracked : List Nat), i + rem = batches →
      (mainBatchLoop cfg check urls batches i rem tracked).events =
        List.intersperse (RunEvent.pause (cfg.delayBetweenRequests * 2))
          ((sliceBatches urls cfg.batchSize i rem).map RunEvent.batch) := by
  intro rem
  induction rem with
  | zero => intro i tracked hib; rfl
  | succ rem ih =>
    intro i tracked hib
    rw [mainBatchLoop_events_succ]
    cases rem with
    | zero =>
      rw [if_neg (by omega)]
      rfl
    | succ rem2 =>
      rw [if_pos (by omega)]
      rw [ih (i + 1) _ (by omega)]
      rfl

/-- **C1**: across all batches, the run produces exactly one outcome
per discovered URL — the outcome list projected to URLs equals the URL
list itself (so no URL is omitted, even when its check fails or
exhausts its retries, and none yields more than one outcome). -/
theorem run_outcomes_exactly_urls (cfg : Config)
    (check : String → Nat → AttemptResult) (urls : List String)
    (tracked : List Nat) (hB : 1 ≤ cfg.batchSize) :
    (mainRun cfg check urls tracked).results.map Outcome.url = urls ∧
    ∀ u : String,
      ((mainRun cfg check urls tracked).results.map Outcome.url).count u =
        urls.count u := by
  have hmain : (mainRun cfg check urls tracked).results.map Outcome.url =
      urls := by
    unfold mainRun
    rw [mainBatchLoop_results]
    rw [sliceBatches_flatten urls cfg.batchSize _ 0
      (by simpa using le_numBatches_mul urls.length cfg.batchSize hB)]
    rw [Nat.zero_mul]
    exact List.drop_zero urls
  exact ⟨hmain, fun u => by rw [hmain]⟩

/-- A checker that always succeeds, exposing no browser. -/
def okPlain : String → Nat → AttemptResult := fun _ _ =>
  Except.ok { issues := [], documentTitle := none, browser := none }

/-- Witness for C1: two URLs with the default configuration produce
exactly those two outcomes, in order. -/
theorem run_outcomes_exactly_urls_witness :
    1 ≤ defaultConfig.batchSize ∧
    (mainRun defaultConfig okPlain
        ["https://site.example/p1", "https://site.example/p2"]
        []).results.map Outcome.url =
      ["https://site.example/p1", "https://site.example/p2"] :=
  ⟨by decide,
    (run_outcomes_exactly_urls defaultConfig okPlain
      ["https://site.example/p1", "https://site.example/p2"] []
      (by decide)).1⟩

/-- **C9**: the batch coordinator partitions the URL list into
`ceil(n / B)` consecutive batches whose concatenation is the whole
list; every batch has at most `B` URLs and every batch before the
last has exactly `B`; between consecutive batches (and not after the
last) the loop pauses for `2 × DELAY_BETWEEN_REQUESTS`, each batch
completing before the pause and the next batch start (the event log is
the batches interspersed with the pauses, in order); and 7 URLs with
batch size 3 give batches of sizes 3, 3, 1. -/
theorem batch_coordinator_spec (cfg : Config)
    (check : String → Nat → AttemptResult) (urls : List String)
    (tracked : List Nat) (hB : 1 ≤ cfg.batchSize) :
    (batchPartition cfg urls).length =
      numBatches urls.length cfg.batchSize ∧
    (batchPartition cfg urls).flatten = urls ∧
    (∀ b ∈ batchPartition cfg urls, b.length ≤ cfg.batchSize) ∧
    (∀ i : Nat, i + 1 < (batchPartition cfg urls).length →
      ((batchPartition cfg urls).getD i []).length = cfg.batchSize) ∧
    (mainRun cfg check urls tracked).events =
      List.intersperse (RunEvent.pause (cfg.delayBetweenRequests * 2))
        ((batchPartition cfg urls).map RunEvent.batch) ∧
    (batchPartition { defaultConfig with batchSize := 3 }
        ["https://site.example/1", "https://site.example/2",
         "https://site.example/3", "https://site.example/4",
         "https://site.example/5", "https://site.example/6",
         "https://site.example/7"]).map List.length = [3, 3, 1] := by
  refine ⟨sliceBatches_length urls cfg.batchSize _ 0, ?_, ?_, ?_, ?_, by decide⟩
  · unfold batchPartition
    rw [sliceBatches_flatten urls cfg.batchSize _ 0
      (by simpa using le_numBatches_mul urls.length cfg.batchSize hB)]
    rw [Nat.zero_mul]
    exact List.drop_zero urls
  · exact fun b hb => sliceBatches_sizes_le urls cfg.batchSize _ 0 b hb
  · intro i hi
    unfold batchPartition at hi ⊢
    rw [sliceBatches_length] at hi
    rw [sliceBatches_getD urls cfg.batchSize _ 0 i (by omega)]
    rw [List.length_take, List.length_drop]
    have hfull := full_batch_bound urls.length cfg.batchSize i hB hi
    simp only [Nat.zero_add]
    generalize ht : i * cfg.batchSize = t at hfull ⊢
    omega
  · unfold mainRun batchPartition
    exact mainBatchLoop_events cfg check urls _ _ 0 tracked (by omega)

/-- Witness for C9: the default configuration has a positive batch
size, and the 7-URL, batch-size-3 scenario partitions into batches of
sizes 3, 3, 1. -/
theorem batch_coordinator_spec_witness :
    1 ≤ defaultConfig.batchSize ∧
    (batchPartition { defaultConfig with batchSize := 3 }
        ["https://site.example/1", "https://site.example/2",
         "https://site.example/3", "https://site.example/4",
         "https://site.example/5", "https://site.example/6",
         "https://site.example/7"]).map List.length = [3, 3, 1] :=
  ⟨by decide,
    (batch_coordinator_spec defaultConfig okPlain [] []
      (by decide)).2.2.2.2.2⟩

end WPAudit
